import Mathlib

/-!
Verification of the SOCKS5 proxy core (`routing-socks`).

The Go source is shallowly embedded: byte streams are `List Nat` (each
element a byte value 0..255), reads consume a prefix of the stream, and
fallible operations return `Except`.  Every definition below is a direct
translation of a function (or inline code block) of the source file; the
source location is named in its doc comment.
-/

namespace Socks

/-- Error kinds of the core.  In the terminology of the specification,
`shortRead`, `invalidRequest`, `unsupportedAtyp`, `upstreamAuthFailed`,
`upstreamReqFailed` and `unsupportedReplyAtyp` are all `ProtocolError`s
(malformed or version-mismatched wire data, including a stream that runs
out before the expected bytes); `connectFailed` is `ConnectError`;
`ioFailed` is `IOError` (a read/write failure on an established socket). -/
inductive SocksErr where
  | shortRead
  | invalidRequest
  | unsupportedAtyp
  | connectFailed
  | ioFailed
  | upstreamAuthFailed
  | upstreamReqFailed
  | unsupportedReplyAtyp
deriving DecidableEq

/-- `Addr` from the source: a SOCKS5 destination address.
`atyp` is the address-type byte (0x01 IPv4, 0x03 domain, 0x04 IPv6),
`addr` the raw address bytes (no length prefix for domains, exactly as the
Go struct stores them), `port` the 16-bit port. -/
structure Addr where
  atyp : Nat
  addr : List Nat
  port : Nat
deriving DecidableEq

instance {ε α : Type _} [DecidableEq ε] [DecidableEq α] : DecidableEq (Except ε α) :=
  fun a b =>
    match a, b with
    | .error e₁, .error e₂ =>
      if h : e₁ = e₂ then .isTrue (congrArg Except.error h)
      else .isFalse (fun hc => h (Except.error.inj hc))
    | .error _, .ok _ => .isFalse (fun hc => Except.noConfusion hc)
    | .ok _, .error _ => .isFalse (fun hc => Except.noConfusion hc)
    | .ok x, .ok y =>
      if h : x = y then .isTrue (congrArg Except.ok h)
      else .isFalse (fun hc => h (Except.ok.inj hc))

/-- `io.ReadFull(conn, buf)` with `len(buf) = k` on a stream: returns the
`k` bytes read and the rest of the stream, or `none` when the stream ends
before `k` bytes are available (Go returns an unexpected-EOF error). -/
def readFull (s : List Nat) (k : Nat) : Option (List Nat × List Nat) :=
  if k ≤ s.length then some (s.take k, s.drop k) else none

/-- `readAddr` (part_000 lines 156-196): reads the 4-byte request header
{version, command, reserved, atyp}, fails unless version = 5 and
command = 1, then reads the address body according to the address type
(4 bytes for IPv4; a 1-byte length then that many bytes for a domain;
16 bytes for IPv6), then the 2-byte big-endian port.  Returns the parsed
`Addr` and the unconsumed rest of the stream. -/
def readAddr (s : List Nat) : Except SocksErr (Addr × List Nat) :=
  match readFull s 4 with
  | none => .error .shortRead
  | some (header, s1) =>
    if header.getD 0 0 ≠ 5 ∨ header.getD 1 0 ≠ 1 then .error .invalidRequest
    else
      let atyp := header.getD 3 0
      let body : Except SocksErr (List Nat × List Nat) :=
        if atyp = 1 then
          match readFull s1 4 with
          | none => .error .shortRead
          | some r => .ok r
        else if atyp = 3 then
          match readFull s1 1 with
          | none => .error .shortRead
          | some (lenByte, s2) =>
            match readFull s2 (lenByte.getD 0 0) with
            | none => .error .shortRead
            | some r => .ok r
        else if atyp = 4 then
          match readFull s1 16 with
          | none => .error .shortRead
          | some r => .ok r
        else .error .unsupportedAtyp
      match body with
      | .error e => .error e
      | .ok (addr, s2) =>
        match readFull s2 2 with
        | none => .error .shortRead
        | some (portBuf, s3) =>
          .ok (⟨atyp, addr, 256 * portBuf.getD 0 0 + portBuf.getD 1 0⟩, s3)

/-- The 2 bytes `binary.BigEndian.PutUint16` produces for a port value. -/
def portBytes (p : Nat) : List Nat := [p / 256 % 256, p % 256]

/-- The upstream CONNECT request built in `dialThroughSocks`
(part_000 lines 221-225): `{0x05, 0x01, 0x00, dest.Atyp}` followed by
`dest.Addr` verbatim and the 2-byte big-endian port.  Note the source
appends the raw address bytes with no length prefix for any address type. -/
def upstreamRequestBytes (dest : Addr) : List Nat :=
  [5, 1, 0, dest.atyp] ++ dest.addr ++ portBytes dest.port

/-- Follows the spec's words (not the source): the upstream CONNECT
request as the specification describes it, where for domain names a
1-byte length prefix equal to the number of domain bytes precedes the
domain bytes. -/
def specUpstreamRequestBytes (dest : Addr) : List Nat :=
  if dest.atyp = 3 then
    [5, 1, 0, dest.atyp, dest.addr.length] ++ dest.addr ++ portBytes dest.port
  else
    [5, 1, 0, dest.atyp] ++ dest.addr ++ portBytes dest.port

/-- Result of the server-role handshake.  `ok resp` means negotiation
succeeded and `resp` are the bytes written back to the client; on
`protocolErr` the function returns before any write; `oobCrash` marks the
Go slice expression `buf[2 : 2+buf[1]]` exceeding the 256-byte buffer,
which panics at runtime. -/
inductive HandshakeResult where
  | ok (resp : List Nat)
  | protocolErr
  | oobCrash
deriving DecidableEq

/-- `handleHandshake` (part_000 lines 138-153) on the negotiation message
`msg` delivered by a single successful `conn.Read` into a zero-initialized
256-byte buffer: fails unless at least 2 bytes were read and the first is
5; takes `methods := buf[2 : 2+buf[1]]`, where Go evaluates `2 + buf[1]`
in `uint8` arithmetic (the untyped constant 2 converts to `byte`), so the
upper bound is `(2 + buf[1]) mod 256` — for method counts 254 and 255 it
wraps below the lower bound 2 and the slice expression panics; succeeds,
writing `{0x05, 0x00}`, iff the slice contains the no-auth method 0x00. -/
def handleHandshake (msg : List Nat) : HandshakeResult :=
  let n := min msg.length 256
  let buf := (msg ++ List.replicate 256 0).take 256
  if n < 2 ∨ buf.getD 0 0 ≠ 5 then .protocolErr
  else
    let high := (2 + buf.getD 1 0) % 256
    if high < 2 then .oobCrash
    else
      let methods := (buf.drop 2).take (high - 2)
      if methods.contains 0 then .ok [5, 0] else .protocolErr

/-- `writeReply` (part_000 lines 272-276): the bytes written to the client
for a reply status `rep` — a fixed 10-byte message reporting bound address
0.0.0.0 port 0. -/
def writeReply (rep : Nat) : List Nat :=
  [5, rep, 0, 1, 0, 0, 0, 0, 0, 0]

/-- A resolved IP address as returned by `net.LookupIP`: `v4` is whether
`ip.To4() != nil` holds, `text` the bytes of `ip.String()`. -/
structure GoIP where
  v4 : Bool
  text : List Nat
deriving DecidableEq

/-- The IP-selection code of `handleClient` (part_000 lines 92-102): scan
the lookup results and take the first one with `To4() != nil`; if none was
found, fall back to the first result; with no results the dial host stays
empty (modelled as `none`). -/
def pickUseIP (ips : List GoIP) : Option GoIP :=
  match ips.find? (fun ip => ip.v4) with
  | some ip => some ip
  | none => ips.head?

/-- The argument `handleClient` passes to `net.LookupIP`
(part_000 line 87): the bytes of `string(destAddr.Addr)` — the raw address
bytes of the parsed destination, whatever its address type. -/
def lookupArg (destAddr : Addr) : List Nat := destAddr.addr

/-- ASCII decimal digits of a byte value (0..255), as `fmt`'s `%d` /
`net.IP.String` would render one dotted-decimal component. -/
def byteAscii (n : Nat) : List Nat :=
  if n < 10 then [48 + n]
  else if n < 100 then [48 + n / 10, 48 + n % 10]
  else [48 + n / 100, 48 + n / 10 % 10, 48 + n % 10]

/-- The textual dotted-decimal form of IPv4 address bytes: the components
rendered in decimal ASCII and joined by dots (0x2E). -/
def dottedDecimal (bs : List Nat) : List Nat :=
  ((bs.map byteAscii).intersperse [46]).flatten

/-- Model of the Go standard library's `net.ParseIP` on the IPv4 side
(the form `LookupIP` recognizes without issuing a DNS query): exactly four
dot-separated fields, each a nonempty run of at most 3 ASCII decimal
digits with value at most 255.  Returns the four component values on
success, `none` when the string is not a dotted-decimal IPv4 literal. -/
def goIPv4Literal (s : List Nat) : Option (List Nat) :=
  let fields := s.splitOn 46
  let okField : List Nat → Bool := fun f =>
    decide (f ≠ []) && decide (f.length ≤ 3) &&
      f.all (fun c => decide (48 ≤ c) && decide (c ≤ 57)) &&
      decide (f.foldl (fun a c => 10 * a + (c - 48)) 0 ≤ 255)
  if fields.length = 4 ∧ fields.all okField then
    some (fields.map (fun f => f.foldl (fun a c => 10 * a + (c - 48)) 0))
  else none

/-- The I/O environment `dialThroughSocks` runs against: whether the TCP
connect to the upstream succeeds, whether each of its two writes succeeds,
and the bytes the upstream will send (reads that run past the end of
`stream` fail as in `readFull`). -/
structure UpEnv where
  connectOk : Bool
  hsWriteOk : Bool
  reqWriteOk : Bool
  stream : List Nat
deriving DecidableEq

/-- Final state of the upstream TCP connection after `dialThroughSocks`:
never opened (the dial itself failed), opened and closed again, or handed
to the caller still open. -/
inductive ConnFate where
  | neverOpened
  | closed
  | handedOff
deriving DecidableEq

/-- Tail of `dialThroughSocks` (part_000 lines 262-268): drain the
upstream reply's bound address (`addrLen` bytes) plus 2 port bytes; a
short read closes the connection and fails, otherwise the connection is
returned to the caller. -/
def drainReply (s : List Nat) (addrLen : Nat) : Except SocksErr Unit × ConnFate :=
  match readFull s (addrLen + 2) with
  | none => (.error .ioFailed, .closed)
  | some _ => (.ok (), .handedOff)

set_option linter.unusedVariables false in
/-- `dialThroughSocks` (part_000 lines 199-269): connect to the upstream,
write the client-role handshake {0x05,0x01,0x00}, read the 2-byte
response and require {0x05,0x00}, write the CONNECT request
(`upstreamRequestBytes dest`; only the write's success, `env.reqWriteOk`,
affects control flow), read the 4-byte reply and require status byte 0,
then drain the reply's bound address per its address-type byte.  Each
failure branch closes the connection (`ConnFate.closed`) exactly where the
source calls `conn.Close()`. -/
def dialThroughSocks (env : UpEnv) (dest : Addr) : Except SocksErr Unit × ConnFate :=
  if env.connectOk = false then (.error .connectFailed, .neverOpened)
  else if env.hsWriteOk = false then (.error .ioFailed, .closed)
  else match readFull env.stream 2 with
    | none => (.error .ioFailed, .closed)
    | some (resp, s1) =>
      if resp.getD 0 0 ≠ 5 ∨ resp.getD 1 0 ≠ 0 then (.error .upstreamAuthFailed, .closed)
      else if env.reqWriteOk = false then (.error .ioFailed, .closed)
      else match readFull s1 4 with
        | none => (.error .ioFailed, .closed)
        | some (reply, s2) =>
          if reply.getD 1 0 ≠ 0 then (.error .upstreamReqFailed, .closed)
          else
            let atyp := reply.getD 3 0
            if atyp = 1 then drainReply s2 4
            else if atyp = 3 then
              match readFull s2 1 with
              | none => (.error .ioFailed, .closed)
              | some (lenByte, s3) => drainReply s3 (lenByte.getD 0 0)
            else if atyp = 4 then drainReply s2 16
            else (.error .unsupportedReplyAtyp, .closed)

/-- The step of `handleClient` after the outbound dial (part_000 lines
117-133): on a dial error, write the failure reply (status 0x05) to the
client and return without relaying; on success, write the success reply
(status 0x00) and start the relay.  The result is (bytes written to the
client, whether a relay is started). -/
def clientChainedStep (r : Except SocksErr Unit) : List Nat × Bool :=
  match r with
  | .error _ => (writeReply 5, false)
  | .ok _ => (writeReply 0, true)

/-- C1: the claimed codec round-trip `decode(encode(a)) = a` fails on the
code for domain-name addresses.  For the valid destination address
{domain "ab" = [97,98], port 80}, the encoder omits the 1-byte length
prefix, so the decoder reads the first domain byte 97 as a length, runs
off the end of the stream and fails with a short read instead of
returning the address; for IPv4 the round-trip does hold. -/
theorem roundTripDomainBug :
    readAddr (upstreamRequestBytes ⟨3, [97, 98], 80⟩) = .error .shortRead ∧
    readAddr (upstreamRequestBytes ⟨3, [97, 98], 80⟩) ≠ .ok (⟨3, [97, 98], 80⟩, []) ∧
    readAddr (upstreamRequestBytes ⟨1, [93, 184, 216, 34], 80⟩) =
      .ok (⟨1, [93, 184, 216, 34], 80⟩, []) := by
  decide

/-- C2: the CONNECT request the code writes to the upstream for the
domain-name destination {domain [97,98], port 80} is
[5,1,0,3,97,98,0,80] — it lacks the 1-byte length prefix the claim (and
the SOCKS5 wire format consumed by the code's own `readAddr`) requires,
which would give [5,1,0,3,2,97,98,0,80]. -/
theorem upstreamRequestOmitsLengthPrefix :
    upstreamRequestBytes ⟨3, [97, 98], 80⟩ = [5, 1, 0, 3, 97, 98, 0, 80] ∧
    specUpstreamRequestBytes ⟨3, [97, 98], 80⟩ = [5, 1, 0, 3, 2, 97, 98, 0, 80] ∧
    upstreamRequestBytes ⟨3, [97, 98], 80⟩ ≠ specUpstreamRequestBytes ⟨3, [97, 98], 80⟩ := by
  decide

/-- C3 counterexample: the negotiation message [5,5] declares 5 method
bytes but provides none (n = 2 < 2 + 5), yet negotiation succeeds — the
method slice is taken from the zero-initialized buffer and the padding
zeros count as the no-auth method — refuting the claim that such a short
message fails with a protocol error. -/
theorem shortHandshakeSucceeds : handleHandshake [5, 5] = .ok [5, 0] := by
  decide

/-- C3 amended: when the single read returns n ≥ 2 bytes with first byte
5 and declared method count N with n < 2 + N (short message) and
N ≤ 253, negotiation does not fail: the method slice extends into the
zero-initialized remainder of the 256-byte buffer, the padding zeros are
taken as the no-auth method 0x00, and the handshake succeeds with
response [5,0].  (With N = 254 or 255 the uint8 upper bound 2+N wraps
below the lower bound 2 and the slice expression panics instead; in no
case does a short message fail because it is short.) -/
theorem shortHandshakePadding (msg : List Nat)
    (h2 : 2 ≤ msg.length) (h5 : msg.getD 0 0 = 5)
    (hshort : msg.length < 2 + msg.getD 1 0) (hcap : msg.getD 1 0 ≤ 253) :
    handleHandshake msg = .ok [5, 0] := by
  have hlt : msg.length < 256 := by omega
  have hbufElem : ∀ i, i < msg.length →
      ((msg ++ List.replicate 256 0).take 256)[i]? = msg[i]? := by
    intro i hi
    rw [List.getElem?_take, if_pos (by omega), List.getElem?_append_left hi]
  have hbufPad : ((msg ++ List.replicate 256 0).take 256)[msg.length]? = some 0 := by
    rw [List.getElem?_take, if_pos hlt, List.getElem?_append_right (Nat.le_refl _),
      Nat.sub_self, List.getElem?_replicate]
    simp
  have hd0 : ((msg ++ List.replicate 256 0).take 256).getD 0 0 = 5 := by
    rw [List.getD_eq_getElem?_getD, hbufElem 0 (by omega),
      ← List.getD_eq_getElem?_getD, h5]
  have hd1 : ((msg ++ List.replicate 256 0).take 256).getD 1 0 = msg.getD 1 0 := by
    rw [List.getD_eq_getElem?_getD, hbufElem 1 (by omega),
      ← List.getD_eq_getElem?_getD]
  have hmem : (0 : Nat) ∈
      (((msg ++ List.replicate 256 0).take 256).drop 2).take (msg.getD 1 0) := by
    have hidx : ((((msg ++ List.replicate 256 0).take 256).drop 2).take
        (msg.getD 1 0))[msg.length - 2]? = some 0 := by
      rw [List.getElem?_take, if_pos (by omega), List.getElem?_drop,
        (by omega : 2 + (msg.length - 2) = msg.length), hbufPad]
    exact List.getElem?_mem hidx
  simp only [handleHandshake]
  rw [if_neg (by rw [not_or]; exact ⟨by omega, fun hne => hne hd0⟩)]
  rw [hd1]
  have hmod : (2 + msg.getD 1 0) % 256 = 2 + msg.getD 1 0 :=
    Nat.mod_eq_of_lt (by omega)
  rw [hmod, if_neg (by omega), Nat.add_sub_cancel_left,
    if_pos (List.elem_eq_true_of_mem hmem)]

/-- C3 amended witness: the message [5,7,2,2] declares 7 methods but
carries only 2 (neither of them no-auth), yet negotiation succeeds. -/
theorem shortHandshakePaddingWitness : handleHandshake [5, 7, 2, 2] = .ok [5, 0] :=
  shortHandshakePadding [5, 7, 2, 2] (by decide) (by decide) (by decide) (by decide)

/-- C4: in direct mode the code does not use a parsed IPv4 address
directly: for the destination {IPv4, 93.184.216.34, port 80} it passes
the raw address bytes [93,184,216,34] (as a string) to `net.LookupIP`.
Those bytes are not a dotted-decimal IPv4 literal (they differ from the
textual form "93.184.216.34", byte list [57,51,...], which would parse),
so the lookup is a DNS query of garbage rather than a direct use of the
IP. -/
theorem rawBytesLookupBug :
    lookupArg ⟨1, [93, 184, 216, 34], 80⟩ = [93, 184, 216, 34] ∧
    goIPv4Literal (lookupArg ⟨1, [93, 184, 216, 34], 80⟩) = none ∧
    dottedDecimal [93, 184, 216, 34] =
      [57, 51, 46, 49, 56, 52, 46, 50, 49, 54, 46, 51, 52] ∧
    lookupArg ⟨1, [93, 184, 216, 34], 80⟩ ≠ dottedDecimal [93, 184, 216, 34] ∧
    goIPv4Literal (dottedDecimal [93, 184, 216, 34]) = some [93, 184, 216, 34] := by
  decide

/-- Helper: `List.find?` returns the head of the filtered list. -/
lemma find?_eq_head?_filter {α : Type _} (p : α → Bool) (l : List α) :
    l.find? p = (l.filter p).head? := by
  induction l with
  | nil => rfl
  | cons x xs ih =>
    cases h : p x with
    | true =>
      rw [List.find?_cons_of_pos _ h, List.filter_cons_of_pos h, List.head?_cons]
    | false =>
      have h' : ¬p x = true := by simp [h]
      rw [List.find?_cons_of_neg _ h', List.filter_cons_of_neg h', ih]

/-- C5: in direct mode, on a non-empty resolution result the code selects
the first IPv4 address in resolution order when one is present (the head
of the IPv4-filtered list), and otherwise falls back to the first address
in resolution order; in both cases some address is selected. -/
theorem pickFirstIPv4 (ips : List GoIP) (h : ips ≠ []) :
    (ips.any (fun ip => ip.v4) = true →
      pickUseIP ips = (ips.filter (fun ip => ip.v4)).head? ∧
        (pickUseIP ips).isSome = true) ∧
    (ips.any (fun ip => ip.v4) = false →
      pickUseIP ips = ips.head? ∧ (pickUseIP ips).isSome = true) := by
  have hfind := find?_eq_head?_filter (fun ip => ip.v4) ips
  constructor
  · intro hany
    rcases List.any_eq_true.mp hany with ⟨x, hx, hv⟩
    have hsome : (ips.find? (fun ip => ip.v4)).isSome :=
      List.find?_isSome.mpr ⟨x, hx, hv⟩
    rcases Option.isSome_iff_exists.mp hsome with ⟨y, hy⟩
    refine ⟨?_, ?_⟩ <;> simp [pickUseIP, hy, ← hfind]
  · intro hnone
    have hfd : ips.find? (fun ip => ip.v4) = none := by
      rw [List.find?_eq_none]
      intro x hx
      have := (List.any_eq_false.mp hnone) x hx
      simpa using this
    cases ips with
    | nil => exact absurd rfl h
    | cons a l => refine ⟨by simp [pickUseIP, hfd], by simp [pickUseIP, hfd]⟩

/-- C5 witness: on the concrete resolution result
[{v6, "a"}, {v4, "b"}, {v4, "c"}] the code selects the first IPv4 entry. -/
theorem pickFirstIPv4Witness :
    pickUseIP [⟨false, [97]⟩, ⟨true, [98]⟩, ⟨true, [99]⟩] =
      (List.filter (fun ip => ip.v4)
        [⟨false, [97]⟩, ⟨true, [98]⟩, ⟨true, [99]⟩]).head? ∧
    (pickUseIP [⟨false, [97]⟩, ⟨true, [98]⟩, ⟨true, [99]⟩]).isSome = true :=
  (pickFirstIPv4 [⟨false, [97]⟩, ⟨true, [98]⟩, ⟨true, [99]⟩] (by decide)).1 (by decide)

/-- C6: `readAddr` reads exactly the 4 header bytes
{version, command, reserved, atyp} and fails with the protocol error
`invalidRequest` whenever the version byte is not 5 or the command byte is
not 1 (so BIND, command 2, is rejected); on the concrete request
[5,1,0,1,93,184,216,34,0,80] it succeeds with the IPv4 destination
93.184.216.34 port 80, consuming the whole input. -/
theorem readClientRequestSpec :
    (∀ (v c r t : Nat) (rest : List Nat), v ≠ 5 ∨ c ≠ 1 →
      readAddr (v :: c :: r :: t :: rest) = .error .invalidRequest) ∧
    readAddr [5, 1, 0, 1, 93, 184, 216, 34, 0, 80] =
      .ok (⟨1, [93, 184, 216, 34], 80⟩, []) ∧
    readAddr [5, 2, 0, 1, 93, 184, 216, 34, 0, 80] = .error .invalidRequest := by
  refine ⟨?_, by decide, by decide⟩
  intro v c r t rest h
  have h4 : readFull (v :: c :: r :: t :: rest) 4 = some ([v, c, r, t], rest) := by
    unfold readFull
    rw [if_pos]
    · rfl
    · simp [List.length_cons]
  simp only [readAddr, h4, List.getD_cons_zero, List.getD_cons_succ]
  rw [if_pos h]

/-- C6 witness: a request whose version byte is 6 is rejected. -/
theorem readClientRequestSpecWitness :
    readAddr (6 :: 1 :: 0 :: 1 :: [93, 184, 216, 34, 0, 80]) =
      .error .invalidRequest :=
  readClientRequestSpec.1 6 1 0 1 [93, 184, 216, 34, 0, 80] (Or.inl (by decide))

/-- C7: for every status byte `rep`, the reply written to the client is
exactly the 10 bytes [5, rep, 0, 1, 0,0,0,0, 0,0] — bound address
0.0.0.0 port 0 regardless of the status or of any real address. -/
theorem writeReplyFixedBytes (rep : Nat) :
    (writeReply rep).length = 10 ∧
    writeReply rep = [5, rep, 0, 1, 0, 0, 0, 0, 0, 0] :=
  ⟨rfl, rfl⟩

/-- C8: server-role handshake on concrete inputs: the message [5,1,0]
succeeds with exactly the response bytes [5,0] written back; the message
[5,1,2] (only method 2 offered) fails with a protocol error, returning
before any write. -/
theorem handshakeConcrete :
    handleHandshake [5, 1, 0] = .ok [5, 0] ∧
    handleHandshake [5, 1, 2] = .protocolErr := by
  decide

/-- Helper: the outcome of `dialThroughSocks` is always either an error
with the connection never opened or closed, or success with the
connection handed off — proved by walking every branch of the source. -/
lemma dial_shape (env : UpEnv) (dest : Addr) :
    (∃ e, dialThroughSocks env dest = (.error e, ConnFate.neverOpened) ∨
          dialThroughSocks env dest = (.error e, ConnFate.closed)) ∨
    dialThroughSocks env dest = (.ok (), ConnFate.handedOff) := by
  obtain ⟨co, hw, rwk, st⟩ := env
  cases co
  · exact Or.inl ⟨.connectFailed, Or.inl rfl⟩
  · cases hw
    · exact Or.inl ⟨.ioFailed, Or.inr rfl⟩
    · rcases h2 : readFull st 2 with _ | ⟨resp, s1⟩
      · refine Or.inl ⟨.ioFailed, Or.inr ?_⟩
        simp [dialThroughSocks, h2]
      · by_cases hresp : resp.getD 0 0 ≠ 5 ∨ resp.getD 1 0 ≠ 0
        · refine Or.inl ⟨.upstreamAuthFailed, Or.inr ?_⟩
          simp only [dialThroughSocks, h2]
          rw [if_pos hresp]
          simp
        · cases rwk
          · refine Or.inl ⟨.ioFailed, Or.inr ?_⟩
            simp only [dialThroughSocks, h2]
            rw [if_neg hresp]
            simp
          · rcases h4 : readFull s1 4 with _ | ⟨reply, s2⟩
            · refine Or.inl ⟨.ioFailed, Or.inr ?_⟩
              simp only [dialThroughSocks, h2, h4]
              rw [if_neg hresp]
              simp [h4]
            · have step : dialThroughSocks ⟨true, true, true, st⟩ dest =
                  (if reply.getD 1 0 ≠ 0 then
                    (.error .upstreamReqFailed, ConnFate.closed)
                  else if reply.getD 3 0 = 1 then drainReply s2 4
                  else if reply.getD 3 0 = 3 then
                    match readFull s2 1 with
                    | none => (.error .ioFailed, ConnFate.closed)
                    | some (lenByte, s3) => drainReply s3 (lenByte.getD 0 0)
                  else if reply.getD 3 0 = 4 then drainReply s2 16
                  else (.error .unsupportedReplyAtyp, ConnFate.closed)) := by
                simp only [dialThroughSocks, h2]
                rw [if_neg hresp]
                simp [h4]
              rw [step]
              by_cases hstat : reply.getD 1 0 ≠ 0
              · rw [if_pos hstat]
                exact Or.inl ⟨.upstreamReqFailed, Or.inr rfl⟩
              · rw [if_neg hstat]
                have drain : ∀ (s : List Nat) (k : Nat),
                    drainReply s k = (.error .ioFailed, ConnFate.closed) ∨
                    drainReply s k = (.ok (), ConnFate.handedOff) := by
                  intro s k
                  unfold drainReply
                  rcases hd : readFull s (k + 2) with _ | r <;> simp [hd]
                by_cases ha1 : reply.getD 3 0 = 1
                · rw [if_pos ha1]
                  rcases drain s2 4 with hd | hd <;> rw [hd]
                  · exact Or.inl ⟨.ioFailed, Or.inr rfl⟩
                  · exact Or.inr rfl
                · rw [if_neg ha1]
                  by_cases ha3 : reply.getD 3 0 = 3
                  · rw [if_pos ha3]
                    rcases hl : readFull s2 1 with _ | ⟨lenByte, s3⟩
                    · exact Or.inl ⟨.ioFailed, Or.inr rfl⟩
                    · rcases drain s3 (lenByte.getD 0 0) with hd | hd
                      · exact Or.inl ⟨.ioFailed, Or.inr hd⟩
                      · exact Or.inr hd
                  · rw [if_neg ha3]
                    by_cases ha4 : reply.getD 3 0 = 4
                    · rw [if_pos ha4]
                      rcases drain s2 16 with hd | hd <;> rw [hd]
                      · exact Or.inl ⟨.ioFailed, Or.inr rfl⟩
                      · exact Or.inr rfl
                    · rw [if_neg ha4]
                      exact Or.inl ⟨.unsupportedReplyAtyp, Or.inr rfl⟩

/-- C9: chained-mode error handling.  For every I/O environment and
destination, whenever `dialThroughSocks` fails (at any of its steps:
connect, handshake write, handshake-response read, non-{5,0} response,
request write, reply read, nonzero reply status, unsupported reply
address type, or reply drain), the upstream connection ends never-opened
or closed — never handed to the caller — and the client-facing step then
writes exactly the failure reply with status 0x05 and starts no relay. -/
theorem dialFailureCleanup (env : UpEnv) (dest : Addr)
    (h : (dialThroughSocks env dest).1.isOk = false) :
    ((dialThroughSocks env dest).2 = ConnFate.neverOpened ∨
      (dialThroughSocks env dest).2 = ConnFate.closed) ∧
    clientChainedStep (dialThroughSocks env dest).1 = (writeReply 5, false) := by
  rcases dial_shape env dest with ⟨e, he | he⟩ | he
  · rw [he]; exact ⟨Or.inl rfl, rfl⟩
  · rw [he]; exact ⟨Or.inr rfl, rfl⟩
  · rw [he] at h; simp [Except.isOk, Except.toBool] at h

/-- C9 witness: with the upstream accepting the TCP connect and the
handshake write but then closing before sending its 2-byte handshake
response (empty stream), the dial fails, the connection is closed, and
the client receives the status-0x05 reply with no relay started. -/
theorem dialFailureCleanupWitness :
    ((dialThroughSocks ⟨true, true, true, []⟩ ⟨1, [127, 0, 0, 1], 80⟩).2 =
        ConnFate.neverOpened ∨
      (dialThroughSocks ⟨true, true, true, []⟩ ⟨1, [127, 0, 0, 1], 80⟩).2 =
        ConnFate.closed) ∧
    clientChainedStep (dialThroughSocks ⟨true, true, true, []⟩
        ⟨1, [127, 0, 0, 1], 80⟩).1 = (writeReply 5, false) :=
  dialFailureCleanup ⟨true, true, true, []⟩ ⟨1, [127, 0, 0, 1], 80⟩ (by decide)

/-- C10: the claimed bounds-safety fails: for the 2-byte negotiation
message [5,255] (method count N = 255) the slice `buf[2 : 2+buf[1]]`
computes its upper bound in uint8 arithmetic, 2+255 wraps to 1, and
`buf[2:1]` has its lower bound above its upper bound — an out-of-bounds
slice, a runtime panic reachable from client input (N = 254, wrapping to
`buf[2:0]`, panics likewise). -/
theorem handshakeSliceCrash : handleHandshake [5, 255] = .oobCrash := by
  decide

end Socks
